import Mathlib

/-!
Shallow embedding of the anytape routing core (src/anytape/src/lib.rs).

Bytes (`u8`) are modelled as `Nat` (no arithmetic is ever performed on
them, so no overflow arises); `Cow<'static, [u8]>` is a sum of a borrowed
and an owned byte buffer whose Rust `PartialEq`/`Hash` go through `Deref`,
i.e. compare and hash the underlying slice.  Async executor calls are
modelled as pure functions returning `Except` (an await of a future is the
value itself).  `Box<dyn Error + Send>` is modelled by a structure packing
an arbitrary error type together with its `Display` implementation and the
error value, which preserves the value while erasing the static type.
`HashMap` fields are modelled as association lists; `HashMap::get` is a
first-match lookup under the key type's equality, and a `HashMap` never
holds two keys that are equal, which appears below as a `Pairwise`
distinctness hypothesis where a claim needs it.
-/

/-- Model of `Cow<'static, [u8]>`: either borrowed static bytes or an owned
buffer. -/
inductive CowBytes : Type where
  | borrowed (bytes : List Nat)
  | owned (bytes : List Nat)
deriving DecidableEq

/-- `Deref` for `Cow`: the underlying byte slice, whatever the variant. -/
def CowBytes.deref : CowBytes → List Nat
  | .borrowed bytes => bytes
  | .owned bytes => bytes

/-- `pub struct Protocol { expr: Cow<'static, [u8]> }`. -/
structure Protocol : Type where
  expr : CowBytes
deriving DecidableEq

/-- Rust `==` on `Protocol` (derived `PartialEq`, which on `Cow` compares
the dereferenced slices). -/
def Protocol.beq (a b : Protocol) : Bool :=
  a.expr.deref == b.expr.deref

/-- `pub struct Identity { expr: Vec<u8> }`. -/
structure Identity : Type where
  expr : List Nat
deriving DecidableEq

/-- Rust `==` on `Identity` (derived `PartialEq` on the owned byte vector). -/
def Identity.beq (a b : Identity) : Bool :=
  a.expr == b.expr

/-- `pub struct Address { pub protocol: Protocol, pub identity: Identity }`. -/
structure Address : Type where
  protocol : Protocol
  identity : Identity
deriving DecidableEq

/-- Rust `==` on `Address` (derived `PartialEq`: field-wise conjunction). -/
def Address.beq (a b : Address) : Bool :=
  Protocol.beq a.protocol b.protocol && Identity.beq a.identity b.identity

/-- Model of a `Hasher`: a state updated one written word at a time. -/
def hashWrite (h : Nat) (b : Nat) : Nat :=
  (h * 31 + b + 1) % (2 ^ 64)

/-- Hashing a byte slice: `Hash for [u8]` writes the length, then the bytes. -/
def hashSlice (h : Nat) (bs : List Nat) : Nat :=
  bs.foldl hashWrite (hashWrite h bs.length)

/-- Derived `Hash` for `Protocol`: hashes the `Cow` via its dereferenced
slice. -/
def Protocol.hashInto (h : Nat) (p : Protocol) : Nat :=
  hashSlice h p.expr.deref

/-- Derived `Hash` for `Identity`: hashes the owned byte vector. -/
def Identity.hashInto (h : Nat) (i : Identity) : Nat :=
  hashSlice h i.expr

/-- Derived `Hash` for `Address`: hashes `protocol`, then `identity`, into
the same hasher (initial state 0). -/
def Address.hash (a : Address) : Nat :=
  Identity.hashInto (Protocol.hashInto 0 a.protocol) a.identity

/-- `pub struct PathNode { name, address, ts }` (`ts: u64`, with `0` the
unset sentinel). -/
structure PathNode : Type where
  name : Option String
  address : Option Address
  ts : Nat
deriving DecidableEq

/-- `PathNode::new()`. -/
def PathNode.new : PathNode :=
  { name := none, address := none, ts := 0 }

/-- `impl Default for PathNode` delegates to `new`. -/
def PathNode.default : PathNode :=
  PathNode.new

/-- `PathNode::with_name`: functional update keeping the other fields. -/
def PathNode.with_name (self : PathNode) (name : String) : PathNode :=
  { self with name := some name }

/-- `PathNode::with_address`: functional update keeping the other fields. -/
def PathNode.with_address (self : PathNode) (address : Address) : PathNode :=
  { self with address := some address }

/-- `pub struct Message { destination, path, payload, signature, unique_id }`. -/
structure Message : Type where
  destination : Address
  path : List PathNode
  payload : List Nat
  signature : List Nat
  unique_id : Nat

/-- `pub enum MessageStatus`. -/
inductive MessageStatus : Type where
  | sended
  | received
  | unreachable
  | sendError

/-- Model of `impl std::error::Error` for an error type `E`: what the core
observes of it is its textual description (`Display`). -/
structure ErrorImpl (E : Type) : Type where
  display : E → String

/-- Model of `Box<dyn Error + Send + 'static>`: the concrete error value
packed with its type and its `Error` implementation; the static type is
erased, the value and its reporting are preserved. -/
structure BoxError : Type 1 where
  ty : Type
  impl : ErrorImpl ty
  val : ty

/-- The textual description of a boxed error (its `Display` output). -/
def BoxError.description (b : BoxError) : String :=
  b.impl.display b.val

/-- `pub trait ProtocolExecutor`: a transport plugin with its own error
type `E` (which implements `Error`); `send` and `get_status` are async and
modelled as pure functions returning their awaited outcome. -/
structure ProtocolExecutor (E : Type) : Type where
  errorImpl : ErrorImpl E
  send : Identity → Message → Except E Unit
  get_status : Identity → Message → Except E MessageStatus

/-- `pub trait DynProtocolExecutor`: the type-erased `send` capability. -/
def DynProtocolExecutor : Type 1 :=
  Identity → Message → Except BoxError Unit

/-- The blanket `impl<T: ProtocolExecutor> DynProtocolExecutor for T`:
forward to the typed `send`, box the error on failure. -/
def ProtocolExecutor.toDyn {E : Type} (ex : ProtocolExecutor E) :
    DynProtocolExecutor :=
  fun remote message =>
    match ex.send remote message with
    | .ok () => .ok ()
    | .error e => .error ⟨E, ex.errorImpl, e⟩

/-- `pub enum SendError`. -/
inductive SendError : Type 1 where
  | executorError (e : BoxError)
  | protocolNotSupport (supported : List Protocol)

/-- `pub struct NodeInstance`.  The two `HashMap` fields and the `HashSet`
are modelled as association lists / a list. -/
structure NodeInstance : Type 1 where
  anon : Bool
  name : Option String
  address_set : List Address
  next_cache : List (Address × Address)
  protocol_executor : List (Protocol × DynProtocolExecutor)

/-- `HashMap::get(&p)` on the executor registry: the entry whose key equals
`p` under `Protocol`'s equality. -/
def lookupExec (m : List (Protocol × DynProtocolExecutor)) (p : Protocol) :
    Option DynProtocolExecutor :=
  (m.find? (fun kv => Protocol.beq kv.1 p)).map Prod.snd

/-- `self.protocol_executor.keys().cloned().collect()`. -/
def NodeInstance.execKeys (self : NodeInstance) : List Protocol :=
  self.protocol_executor.map Prod.fst

/-- `NodeInstance::mark(&self, accept_at, message)`: build this node's hop
record and push it onto `message.path`; modelled as returning the updated
message. -/
def NodeInstance.mark (self : NodeInstance) (accept_at : Address)
    (message : Message) : Message :=
  let this_node :=
    if self.anon then
      PathNode.new
    else
      let pn := PathNode.new.with_address accept_at
      match self.name with
      | some name => pn.with_name name
      | none => pn
  { message with path := message.path ++ [this_node] }

/-- `NodeInstance::send(&self, message, to)`: look up the executor for
`toAddr.protocol`; delegate and wrap failures, or fail with the registered key
set. -/
def NodeInstance.send (self : NodeInstance) (message : Message)
    (toAddr : Address) : Except SendError Unit :=
  match lookupExec self.protocol_executor toAddr.protocol with
  | some executor =>
      match executor toAddr.identity message with
      | .ok () => .ok ()
      | .error e => .error (SendError.executorError e)
  | none =>
      .error (SendError.protocolNotSupport
        (self.protocol_executor.map Prod.fst))

/-! ## Sample values for concrete witnesses -/

def pUdp : Protocol := ⟨CowBytes.borrowed [1]⟩

def pUdpOwned : Protocol := ⟨CowBytes.owned [1]⟩

def pBle : Protocol := ⟨CowBytes.owned [2]⟩

def pTcp : Protocol := ⟨CowBytes.borrowed [3]⟩

def idA : Identity := ⟨[7]⟩

def addrUdp : Address := ⟨pUdp, idA⟩

def addrTcp : Address := ⟨pTcp, idA⟩

def nameA : String := "node-a"

def boomMsg : String := "transport failure"

def errStr : ErrorImpl String := ⟨fun s => s⟩

def okExec : DynProtocolExecutor := fun _ _ => .ok ()

def boomBox : BoxError := ⟨String, errStr, boomMsg⟩

def failDyn : DynProtocolExecutor := fun _ _ => .error boomBox

def msg0 : Message :=
  { destination := addrTcp, path := [], payload := [10], signature := [11],
    unique_id := 42 }

def inst2 : NodeInstance :=
  { anon := false, name := some nameA, address_set := [], next_cache := [],
    protocol_executor := [(pUdp, okExec), (pBle, okExec)] }

def instFail : NodeInstance :=
  { anon := true, name := none, address_set := [], next_cache := [],
    protocol_executor := [(pUdp, failDyn)] }

def instAnon : NodeInstance :=
  { anon := true, name := some nameA, address_set := [], next_cache := [],
    protocol_executor := [] }

def typedFail : ProtocolExecutor String :=
  { errorImpl := errStr, send := fun _ _ => .error boomMsg,
    get_status := fun _ _ => .ok MessageStatus.sended }

def okTyped : ProtocolExecutor String :=
  { errorImpl := errStr, send := fun _ _ => .ok (),
    get_status := fun _ _ => .ok MessageStatus.sended }

def instTypedFail : NodeInstance :=
  { anon := false, name := none, address_set := [], next_cache := [],
    protocol_executor := [(pUdp, typedFail.toDyn)] }

/-- A sequence of `mark` calls, each with its own node instance and accept
address, applied in order to a message. -/
def markSeq (ops : List (NodeInstance × Address)) (message : Message) :
    Message :=
  ops.foldl (fun m op => op.1.mark op.2 m) message


/-! ## Helper lemmas -/

theorem Protocol.beq_true_iff (a b : Protocol) :
    Protocol.beq a b = true ↔ a.expr.deref = b.expr.deref := by
  simp [Protocol.beq]

theorem Identity.beq_bytes_iff (a b : Identity) :
    Identity.beq a b = true ↔ a.expr = b.expr := by
  simp [Identity.beq]

theorem lookupExec_eq_none (m : List (Protocol × DynProtocolExecutor))
    (p : Protocol) :
    lookupExec m p = none ↔ ∀ kv ∈ m, Protocol.beq kv.1 p = false := by
  simp [lookupExec, List.find?_eq_none]

theorem lookupExec_none_congr (m m2 : List (Protocol × DynProtocolExecutor))
    (p : Protocol) (hk : m2.map Prod.fst = m.map Prod.fst)
    (h : lookupExec m p = none) : lookupExec m2 p = none := by
  rw [lookupExec_eq_none] at h ⊢
  intro kv hkv
  have hmem : kv.1 ∈ m.map Prod.fst := by
    rw [← hk]
    exact List.mem_map_of_mem Prod.fst hkv
  rcases List.mem_map.mp hmem with ⟨kv2, hkv2, he⟩
  rw [← he]
  exact h kv2 hkv2

theorem lookupExec_of_mem (m : List (Protocol × DynProtocolExecutor))
    (p q : Protocol) (ex : DynProtocolExecutor)
    (hdist : (m.map Prod.fst).Pairwise
      (fun a b => a.expr.deref ≠ b.expr.deref))
    (hmem : (q, ex) ∈ m) (hq : Protocol.beq q p = true) :
    lookupExec m p = some ex := by
  induction m with
  | nil => cases hmem
  | cons kv t ih =>
      rw [List.map_cons, List.pairwise_cons] at hdist
      rcases List.mem_cons.mp hmem with h | h
      · rw [← h]
        simp [lookupExec, List.find?_cons, hq]
      · rcases hbeq : Protocol.beq kv.1 p with _ | _
        · have : lookupExec t p = some ex := ih hdist.2 h
          simpa [lookupExec, List.find?_cons, hbeq] using this
        · exfalso
          have hqmem : q ∈ t.map Prod.fst :=
            List.mem_map.mpr ⟨(q, ex), h, rfl⟩
          have hne := hdist.1 q hqmem
          have h1 := (Protocol.beq_true_iff kv.1 p).mp hbeq
          have h2 := (Protocol.beq_true_iff q p).mp hq
          exact hne (h1.trans h2.symm)

theorem mark_shape (self : NodeInstance) (accept_at : Address)
    (message : Message) :
    ∃ n : PathNode,
      self.mark accept_at message
          = { message with path := message.path ++ [n] } ∧
      n.ts = 0 ∧
      (self.anon = true → n = PathNode.new) ∧
      (∀ nm : String, self.anon = false → self.name = some nm →
        n = { name := some nm, address := some accept_at, ts := 0 })
    := by
  rcases hanon : self.anon with _ | _
  · rcases hname : self.name with _ | nm
    · refine ⟨PathNode.new.with_address accept_at, ?_, rfl, ?_, ?_⟩
      · simp [NodeInstance.mark, hanon, hname]
      · intro h
        cases h
      · intro nm2 _ h2
        cases h2
    · refine ⟨(PathNode.new.with_address accept_at).with_name nm, ?_, rfl,
        ?_, ?_⟩
      · simp [NodeInstance.mark, hanon, hname]
      · intro h
        cases h
      · intro nm2 _ h2
        cases h2
        rfl
  · refine ⟨PathNode.new, ?_, rfl, fun _ => rfl, ?_⟩
    · simp [NodeInstance.mark, hanon]
    · intro nm2 hfalse _
      cases hfalse

/-! ## Claim theorems -/

/-- C1: when the registry has no executor for the destination protocol,
`send` fails with `ProtocolNotSupport` whose `supported` list, as a set, is
exactly the registry's key set, and no executor is consulted: the result is
unchanged for any registry with the same keys and arbitrary executors. -/
theorem send_protocol_not_support (self : NodeInstance) (message : Message)
    (toAddr : Address)
    (h : lookupExec self.protocol_executor toAddr.protocol = none) :
    self.send message toAddr
        = .error (SendError.protocolNotSupport self.execKeys) ∧
    (∀ p : Protocol, p ∈ self.execKeys ↔
      ∃ kv ∈ self.protocol_executor, kv.1 = p) ∧
    (∀ other : NodeInstance,
      other.protocol_executor.map Prod.fst
          = self.protocol_executor.map Prod.fst →
      other.send message toAddr = self.send message toAddr) := by
  refine ⟨?_, ?_, ?_⟩
  · simp [NodeInstance.send, h, NodeInstance.execKeys]
  · intro p
    simp [NodeInstance.execKeys]
  · intro other hk
    have h2 : lookupExec other.protocol_executor toAddr.protocol = none :=
      lookupExec_none_congr self.protocol_executor other.protocol_executor
        toAddr.protocol hk h
    simp [NodeInstance.send, h, h2, hk]

/-- C1 witness: a node registering only udp and ble, sent to a tcp
address. -/
theorem send_protocol_not_support_witness :
    lookupExec inst2.protocol_executor addrTcp.protocol = none ∧
    inst2.send msg0 addrTcp
        = .error (SendError.protocolNotSupport [pUdp, pBle]) :=
  ⟨rfl, (send_protocol_not_support inst2 msg0 addrTcp rfl).1⟩

/-- C2: when an executor is registered for the destination protocol (keys
pairwise distinct, as in a `HashMap`), `send` dispatches to exactly that
executor: the lookup yields it, success gives `Ok(())`, and a failure is
returned wrapped in `ExecutorError`. -/
theorem send_dispatch (self : NodeInstance) (message : Message)
    (toAddr : Address) (q : Protocol) (ex : DynProtocolExecutor)
    (hdist : (self.protocol_executor.map Prod.fst).Pairwise
      (fun a b => a.expr.deref ≠ b.expr.deref))
    (hmem : (q, ex) ∈ self.protocol_executor)
    (hq : Protocol.beq q toAddr.protocol = true) :
    lookupExec self.protocol_executor toAddr.protocol = some ex ∧
    (ex toAddr.identity message = .ok () →
      self.send message toAddr = .ok ()) ∧
    (∀ e : BoxError, ex toAddr.identity message = .error e →
      self.send message toAddr = .error (SendError.executorError e)) := by
  have hlook : lookupExec self.protocol_executor toAddr.protocol = some ex :=
    lookupExec_of_mem self.protocol_executor toAddr.protocol q ex hdist
      hmem hq
  refine ⟨hlook, ?_, ?_⟩
  · intro hok
    simp [NodeInstance.send, hlook, hok]
  · intro e herr
    simp [NodeInstance.send, hlook, herr]

/-- C2 witness: dispatch to the registered udp executor succeeds, and a
failing executor's error comes back wrapped. -/
theorem send_dispatch_witness :
    inst2.send msg0 addrUdp = .ok () ∧
    instFail.send msg0 addrUdp
        = .error (SendError.executorError boomBox) :=
  ⟨(send_dispatch inst2 msg0 addrUdp pUdp okExec (by decide)
      (List.Mem.head _) rfl).2.1 rfl,
   (send_dispatch instFail msg0 addrUdp pUdp failDyn (by decide)
      (List.Mem.head _) rfl).2.2 boomBox rfl⟩

/-- C3: an anonymous node marks every message with the empty hop
(`name = none`, `address = none`), and the appended hop does not depend on
the `accept_at` argument. -/
theorem mark_anonymous (self : NodeInstance) (a1 a2 : Address)
    (message : Message) (h : self.anon = true) :
    (self.mark a1 message).path
        = message.path ++ [{ name := none, address := none, ts := 0 }] ∧
    self.mark a1 message = self.mark a2 message := by
  rcases mark_shape self a1 message with ⟨n1, he1, _, hanon1, _⟩
  rcases mark_shape self a2 message with ⟨n2, he2, _, hanon2, _⟩
  have h1 : n1 = PathNode.new := hanon1 h
  have h2 : n2 = PathNode.new := hanon2 h
  constructor
  · rw [he1, h1]
    rfl
  · rw [he1, he2, h1, h2]

/-- C3 witness: the anonymous sample node appends the empty hop at two
different accept addresses. -/
theorem mark_anonymous_witness :
    (instAnon.mark addrUdp msg0).path
        = msg0.path ++ [{ name := none, address := none, ts := 0 }] ∧
    instAnon.mark addrUdp msg0 = instAnon.mark addrTcp msg0 :=
  mark_anonymous instAnon addrUdp addrTcp msg0 rfl

/-- C4: a non-anonymous node with a configured name marks every message
with a hop carrying that name and the `accept_at` address. -/
theorem mark_named (self : NodeInstance) (accept_at : Address)
    (message : Message) (n : String) (h1 : self.anon = false)
    (h2 : self.name = some n) :
    (self.mark accept_at message).path
        = message.path
            ++ [{ name := some n, address := some accept_at, ts := 0 }] := by
  rcases mark_shape self accept_at message with ⟨nd, he, _, _, hnamed⟩
  rw [he, hnamed n h1 h2]

/-- C4 witness: the named sample node appends its name and the accept
address. -/
theorem mark_named_witness :
    (inst2.mark addrUdp msg0).path
        = msg0.path
            ++ [{ name := some nameA, address := some addrUdp, ts := 0 }] :=
  mark_named inst2 addrUdp msg0 nameA rfl rfl

theorem markSeq_frame (ops : List (NodeInstance × Address))
    (message : Message) :
    (markSeq ops message).path.length = message.path.length + ops.length ∧
    (markSeq ops message).path.take message.path.length = message.path := by
  induction ops generalizing message with
  | nil => simp [markSeq]
  | cons op t ih =>
      have hstep : markSeq (op :: t) message
          = markSeq t (op.1.mark op.2 message) := rfl
      rcases mark_shape op.1 op.2 message with ⟨n, he, _, _, _⟩
      rcases ih (op.1.mark op.2 message) with ⟨ihlen, ihtake⟩
      have hM : (op.1.mark op.2 message).path = message.path ++ [n] := by
        rw [he]
      have hle : message.path.length ≤ (op.1.mark op.2 message).path.length
          := by
        rw [hM]
        simp
      constructor
      · rw [hstep, ihlen, hM]
        simp
        omega
      · rw [hstep]
        have e1 : (markSeq t (op.1.mark op.2 message)).path.take
              message.path.length
            = ((markSeq t (op.1.mark op.2 message)).path.take
                (op.1.mark op.2 message).path.length).take
                message.path.length := by
          rw [List.take_take, Nat.min_eq_left hle]
        rw [e1, ihtake, hM]
        exact List.take_left message.path [n]

/-- C5: one `mark` call grows the path by exactly one hop, keeps every
previously present hop unchanged (the old path is the prefix of the new
one), and leaves every other message field untouched; consequently a
sequence of `mark` calls grows the path by one hop per call while keeping
the original path as a prefix. -/
theorem mark_frame (self : NodeInstance) (accept_at : Address)
    (message : Message) (ops : List (NodeInstance × Address)) :
    (self.mark accept_at message).path.length = message.path.length + 1 ∧
    (self.mark accept_at message).path.take message.path.length
        = message.path ∧
    (self.mark accept_at message).destination = message.destination ∧
    (self.mark accept_at message).payload = message.payload ∧
    (self.mark accept_at message).signature = message.signature ∧
    (self.mark accept_at message).unique_id = message.unique_id ∧
    (markSeq ops message).path.length = message.path.length + ops.length ∧
    (markSeq ops message).path.take message.path.length = message.path := by
  rcases mark_shape self accept_at message with ⟨n, he, _, _, _⟩
  rcases markSeq_frame ops message with ⟨hlen, htake⟩
  refine ⟨?_, ?_, ?_, ?_, ?_, ?_, hlen, htake⟩
  · rw [he]
    simp
  · rw [he]
    simp
  · rw [he]
  · rw [he]
  · rw [he]
  · rw [he]

/-- C6: two addresses are equal iff their protocols and identities are
component-wise equal; protocol equality is byte-sequence equality of the
dereferenced `Cow`, independent of the borrowed/owned variant; and equal
addresses hash identically. -/
theorem address_equality (p1 p2 : Protocol) (i1 i2 : Identity) :
    (Address.beq ⟨p1, i1⟩ ⟨p2, i2⟩ = true ↔
      Protocol.beq p1 p2 = true ∧ Identity.beq i1 i2 = true) ∧
    (Protocol.beq p1 p2 = true ↔ p1.expr.deref = p2.expr.deref) ∧
    (Address.beq ⟨p1, i1⟩ ⟨p2, i2⟩ = true →
      Address.hash ⟨p1, i1⟩ = Address.hash ⟨p2, i2⟩) := by
  refine ⟨?_, Protocol.beq_true_iff p1 p2, ?_⟩
  · simp [Address.beq]
  · intro h
    rw [Address.beq, Bool.and_eq_true] at h
    have hp : p1.expr.deref = p2.expr.deref := (Protocol.beq_true_iff p1 p2).mp h.1
    have hi : i1.expr = i2.expr := (Identity.beq_bytes_iff i1 i2).mp h.2
    simp [Address.hash, Protocol.hashInto, Identity.hashInto, hp, hi]

/-- C6 witness: a borrowed and an owned protocol with the same bytes give
equal addresses with equal hashes. -/
theorem address_equality_witness :
    Address.beq ⟨pUdp, idA⟩ ⟨pUdpOwned, idA⟩ = true ∧
    Address.hash ⟨pUdp, idA⟩ = Address.hash ⟨pUdpOwned, idA⟩ :=
  ⟨rfl, (address_equality pUdp pUdpOwned idA idA).2.2 rfl⟩

/-- C7: when the registered executor for the destination protocol is the
erasure of a typed executor whose `send` fails with error `e`, `send`
returns `ExecutorError` carrying a boxed error whose textual description
is exactly the original error's `Display` output. -/
theorem send_preserves_error_description {E : Type} (self : NodeInstance)
    (message : Message) (toAddr : Address) (ex : ProtocolExecutor E) (e : E)
    (hlook : lookupExec self.protocol_executor toAddr.protocol
        = some ex.toDyn)
    (hfail : ex.send toAddr.identity message = .error e) :
    ∃ b : BoxError,
      self.send message toAddr = .error (SendError.executorError b) ∧
      b.description = ex.errorImpl.display e := by
  refine ⟨⟨E, ex.errorImpl, e⟩, ?_, rfl⟩
  simp [NodeInstance.send, hlook, ProtocolExecutor.toDyn, hfail]

/-- C7 witness: a typed executor over string errors failing with a concrete
message, whose description survives erasure and wrapping. -/
theorem send_preserves_error_description_witness :
    ∃ b : BoxError,
      instTypedFail.send msg0 addrUdp
          = .error (SendError.executorError b) ∧
      b.description = boomMsg :=
  send_preserves_error_description instTypedFail msg0 addrUdp typedFail
    boomMsg rfl rfl

/-- C8: the blanket erasure adapter is equivalent to the typed `send`: it
succeeds exactly when the typed `send` succeeds, and fails exactly with
the typed error boxed, otherwise unchanged. -/
theorem toDyn_equiv {E : Type} (ex : ProtocolExecutor E) (remote : Identity)
    (message : Message) :
    (ex.toDyn remote message = .ok () ↔ ex.send remote message = .ok ()) ∧
    (∀ e : E, ex.send remote message = .error e →
      ex.toDyn remote message = .error ⟨E, ex.errorImpl, e⟩) ∧
    (∀ b : BoxError, ex.toDyn remote message = .error b →
      ∃ e : E, ex.send remote message = .error e
        ∧ b = ⟨E, ex.errorImpl, e⟩) := by
  rcases h : ex.send remote message with e | u
  · refine ⟨?_, ?_, ?_⟩
    · simp [ProtocolExecutor.toDyn, h]
    · intro e2 he2
      cases he2
      simp [ProtocolExecutor.toDyn, h]
    · intro b hb
      simp [ProtocolExecutor.toDyn, h] at hb
      exact ⟨e, rfl, hb.symm⟩
  · cases u
    refine ⟨?_, ?_, ?_⟩
    · simp [ProtocolExecutor.toDyn, h]
    · intro e2 he2
      cases he2
    · intro b hb
      simp [ProtocolExecutor.toDyn, h] at hb

/-- C8 witness: the adapter at a succeeding and at a failing concrete typed
executor. -/
theorem toDyn_equiv_witness :
    okTyped.toDyn idA msg0 = .ok () ∧
    typedFail.toDyn idA msg0 = .error ⟨String, errStr, boomMsg⟩ :=
  ⟨(toDyn_equiv okTyped idA msg0).1.mpr rfl,
   (toDyn_equiv typedFail idA msg0).2.1 boomMsg rfl⟩

/-- C9: `send` always yields one of the three outcomes `Ok(())`,
`ExecutorError`, or `ProtocolNotSupport`; no other result (in particular
no panic path) exists, given that the invoked executor itself returns
(executors are total functions in this model, as is `mark`). -/
theorem send_no_panic (self : NodeInstance) (message : Message)
    (toAddr : Address) :
    self.send message toAddr = .ok () ∨
    (∃ e : BoxError,
      self.send message toAddr = .error (SendError.executorError e)) ∨
    (∃ s : List Protocol,
      self.send message toAddr
          = .error (SendError.protocolNotSupport s)) := by
  rcases hl : lookupExec self.protocol_executor toAddr.protocol with _ | ex
  · right
    right
    exact ⟨self.protocol_executor.map Prod.fst,
      by simp [NodeInstance.send, hl]⟩
  · rcases hr : ex toAddr.identity message with e | u
    · right
      left
      exact ⟨e, by simp [NodeInstance.send, hl, hr]⟩
    · left
      cases u
      simp [NodeInstance.send, hl, hr]

/-- C10: every hop appended by `mark` carries the unset timestamp sentinel
`ts = 0`, whatever the node configuration and accept address. -/
theorem mark_ts_unset (self : NodeInstance) (accept_at : Address)
    (message : Message) :
    ∃ n : PathNode,
      (self.mark accept_at message).path = message.path ++ [n]
        ∧ n.ts = 0 := by
  rcases mark_shape self accept_at message with ⟨n, he, hts, _, _⟩
  exact ⟨n, by rw [he], hts⟩
